import Mathlib

/-!
Verification of the ss-light client download orchestrator (lib/ss_light.go).

The development shallowly embeds the library's pure logic and its
orchestration state machine.  External collaborators (the libp2p transport,
the encoding/json library, the HTTP stack, the wall clock) are passed in as
explicit oracle values or functions, exactly at the points where the Go code
calls out to them.  Background goroutines (the re-bootstrap task, the
zero-peer wait loop, the progress monitor) are embedded as tick-indexed
recursive functions over the streams of values they would observe.
-/

namespace SSLight

/-- Separator used to join command tokens (constant cmdSeparator). -/
def cmdSeparator : String := "%$#"

/-- Path separator (constant fpSeparator, string(os.PathSeparator) on linux). -/
def fpSeparator : String := "/"

/-- Peer-count threshold below which the retry task is started (constant peerThreshold). -/
def peerThreshold : Int := 5

/-- Status code constant success. -/
def success : Int := 200

/-- Status code constant internalError. -/
def internalError : Int := 500

/-- Status code constant timeoutError. -/
def timeoutError : Int := 504

/-- Status code constant serviceError. -/
def serviceError : Int := 503

/-- Cookie part of the API metadata (struct cookie). Peer addresses are kept
abstract as strings. -/
structure cookie where
  Id : String
  Leaders : List String
  DownloadIndex : String
  Filename : String
  Hash : String
  Link : String
deriving DecidableEq, Repr

/-- API metadata payload (struct info). SwarmKey bytes are abstract naturals. -/
structure info where
  Cookie : cookie
  SwarmKey : List Nat
  Rate : String
deriving DecidableEq, Repr

/-- Stat output assembled at the end of a stat run (struct StatOut); ledger
receipts are kept abstract as strings. -/
structure StatOut where
  ConnectedPeers : List String
  Ledgers : List String
  DownloadTime : Int
deriving DecidableEq, Repr

/-- Translation of combineArgs: the loop appends the separator before every
argument except the first one (index 0). -/
def combineArgs (separator : String) (args : List String) : String :=
  match args with
  | [] => ""
  | a :: rest => rest.foldl (fun retPath v => retPath ++ separator ++ v) a

/-- Specification-side rendering of a token list joined by a separator. -/
def joinSep (sep : String) : List String → String
  | [] => ""
  | [a] => a
  | a :: b :: rest => a ++ sep ++ joinSep sep (b :: rest)

/-- Translation of the command value built in getInfo and posted under the key
val: nine fixed-position tokens, with the cookie pair appended afterwards when
the previous cookie id is non-empty (len(oldCookie) > 0).  The base64 public
key and the external ip are results of external calls and enter as inputs. -/
def getInfoVal (sharable oldCookie pubKeyB64 externalIp : String) : String :=
  let base := combineArgs cmdSeparator
    ["hive", "customer", "fetch", sharable, "--public-key", pubKeyB64,
     "--source-ip", externalIp, "-j"]
  if 0 < oldCookie.length then
    combineArgs cmdSeparator [base, "--cookie", oldCookie]
  else
    base

/-- Translation of the command value built in updateInfo: the completion
command carrying the cookie id and the elapsed seconds rendered in decimal. -/
def updateInfoVal (i : info) (timeConsumed : Int) : String :=
  combineArgs cmdSeparator
    ["hive", "customer", "complete", i.Cookie.Id, toString timeConsumed, "-j"]

/-- Go time.Minute expressed in nanoseconds, the unit of time.Duration. -/
def timeMinute : Int := 60000000000

/-- Client state (struct LightClient).  The key pair and the datastore are
externally produced handles and are not carried here. -/
structure LightClient where
  destination : String
  repoRoot : String
  jsonOut : Bool
  timeout : Int
deriving DecidableEq, Repr

/-- Translation of NewLightClient.  Key-pair generation and duration parsing
are external calls and enter as oracle inputs: keyGen is the generated pair
(abstract, none on failure) and parsedTimeout is the result of
time.ParseDuration on the timeout string (none when the string does not
parse).  On a parse failure the code logs the 15m warning and assigns
time.Minute * 45.  Returns the client paired with the warning log lines, or
the key-generation error. -/
def NewLightClient (destination timeout : String) (jsonOut : Bool)
    (keyGen : Option Unit) (parsedTimeout : Option Int) :
    Except String (LightClient × List String) :=
  match keyGen with
  | none => Except.error "Failed generating key pair"
  | some _ =>
    let toLogs : Int × List String :=
      match parsedTimeout with
      | some d => (d, [])
      | none => (timeMinute * 45,
          ["Invalid timeout duration specified. Using default 15m"])
    let _ := timeout
    Except.ok
      ({ destination := destination, repoRoot := "", jsonOut := jsonOut,
         timeout := toLogs.1 }, toLogs.2)

/-- Inner JSON document of the double-nested envelope (the anonymous tmp
struct in UnmarshalJSON); Data carries the raw message bytes. -/
structure tmpResp where
  Status : Int
  Details : String
  Data : String
deriving DecidableEq, Repr

/-- Go map indexing with the zero-value default for a missing key. -/
def mapGet (m : List (String × String)) (k : String) : String :=
  match m.lookup k with
  | some v => v
  | none => ""

/-- Translation of apiResp.UnmarshalJSON.  The three json.Unmarshal calls go
to the external encoding/json library and enter as parse oracles: outerParse
is the parse of the body into map[string]string, innerParse parses the string
under the key val into the tmp struct, and dataParse parses the raw data
bytes into the info payload.  The synthesized message reproduces Go's output
for the verb mismatch in Sprintf("Invalid status from server: %s", int).
On success the method stores the status and the decoded data. -/
def UnmarshalJSON
    (outerParse : Except String (List (String × String)))
    (innerParse : String → Except String tmpResp)
    (dataParse : String → Except String info) : Except String (Int × info) :=
  match outerParse with
  | Except.error e => Except.error e
  | Except.ok val =>
    match innerParse (mapGet val "val") with
    | Except.error e => Except.error e
    | Except.ok tmp =>
      if tmp.Status ≠ 200 then
        Except.error
          (if tmp.Details.length = 0 then
            "Invalid status from server: %!s(int=" ++ toString tmp.Status ++ ")"
          else tmp.Details)
      else
        match dataParse tmp.Data with
        | Except.error e => Except.error e
        | Except.ok d => Except.ok (tmp.Status, d)

/-- Translation of the zero-peer wait loop in Start: each iteration first
waits one second (or dies when the session deadline fires during the wait) and
then breaks once the shared counter is positive.  counts s is the value of
the shared counter as read after the s-th one-second wait; fuel is the number
of full one-second waits that complete before the deadline fires.  Returns
the tick at which a positive count was read, or none when the deadline fires
first. -/
def waitForPeers (counts : Nat → Int) : Nat → Nat → Option Nat
  | 0, _ => none
  | fuel + 1, t =>
    if 0 < counts (t + 1) then some (t + 1)
    else waitForPeers counts fuel (t + 1)

/-- Exit reasons of the background re-bootstrap goroutine: the count reached
the threshold, the session context was cancelled, the fifteen-minute budget
elapsed, or the modelling fuel ran out (proved unreachable with enough fuel). -/
inductive RetryExit where
  | threshold
  | cancelled
  | timeBudget
  | fuelOut
deriving DecidableEq, Repr

/-- Translation of the background re-bootstrap goroutine in Start.  Tick s
counts the thirty-second waits completed since the task started, so the
elapsed seconds after tick s are 30 * s and the fifteen-minute check
time.Since(start) > 15min reads 900 < 30 * s.  cancelTick is the first tick
during whose wait ctx.Done fires; bootstrapResults s is the count returned by
lite.Bootstrap(metadata.Cookie.Leaders) at tick s; numLeaders is
len(metadata.Cookie.Leaders).  Returns the final count, the exit tick and the
exit reason. -/
def retryLoop (bootstrapResults : Nat → Int) (numLeaders : Nat)
    (cancelTick : Nat) : Nat → Nat → Int → Int × Nat × RetryExit
  | 0, t, count => (count, t, RetryExit.fuelOut)
  | fuel + 1, t, count =>
    if peerThreshold ≤ count then (count, t, RetryExit.threshold)
    else if cancelTick ≤ t + 1 then (count, t + 1, RetryExit.cancelled)
    else if 900 < 30 * (t + 1) then (count, t + 1, RetryExit.timeBudget)
    else
      retryLoop bootstrapResults numLeaders cancelTick fuel (t + 1)
        (if count < (numLeaders : Int) then count + bootstrapResults (t + 1)
         else count)

/-- Data payload variants carried by the uniform output record. -/
inductive OutData where
  | noData
  | metaData (i : info)
  | statData (s : StatOut)
deriving DecidableEq, Repr

/-- Modelled from the spec: the uniform result record with status, message,
detail and data of section 6; the source file defining Out is not under src. -/
structure Out where
  Status : Int
  Message : String
  Details : String
  Data : OutData
deriving DecidableEq, Repr

/-- Modelled from the spec: the Out constructor used throughout Start; the
source file defining NewOut is not under src. -/
def NewOut (status : Int) (message details : String) (data : OutData) : Out :=
  { Status := status, Message := message, Details := details, Data := data }

/-- Modelled from the spec: the message constant of the metadata-only result
(MetaInfo); its defining source file is not under src, so a stand-in literal
represents the unobservable constant. -/
def MetaInfo : String := "Meta info"

/-- Modelled from the spec: the message constant of the plain success result
(DownloadSuccess); the older source version returns this literal directly. -/
def DownloadSuccess : String := "Download complete"

/-- Observable actions of a session, recorded in order by the embedding of
Start so that frame conditions can be stated. -/
inductive Effect where
  | getInfoCall
  | createFile (path : String)
  | decodePSK
  | setupLibp2p
  | liteNew
  | bootstrapCall
  | retryTaskStarted
  | waitLoopEntered
  | cidDecode
  | getFileCall
  | progressStarted
  | copyCall
  | waitGrace
  | updateInfoCall
  | logUpdateInfoFailure
  | ledgerCall
deriving DecidableEq, Repr

/-- Results of the external calls a session makes, in the order Start makes
them.  Fallible calls carry their error strings; getMicroPayments returns the
ledger list together with an error that the code discards. -/
structure Env where
  getInfoRes : Except String info
  createRes : Except String Unit
  pskRes : Except String Unit
  libp2pRes : Except String Unit
  liteNewRes : Except String Unit
  bootstrapCount : Int
  waitCounts : Nat → Int
  deadlineTicks : Nat
  cidRes : String → Except String Unit
  getFileRes : Except String Int
  copyRes : Except String Unit
  updateInfoRes : Except String Unit
  peers : List String
  getMicroPayments : List String × Option String
  downloadTime : Int

/-- Effects that only the download phase can append to the trace. -/
def downloadEffects : List Effect :=
  [Effect.cidDecode, Effect.getFileCall, Effect.progressStarted,
   Effect.copyCall, Effect.waitGrace, Effect.updateInfoCall,
   Effect.logUpdateInfoFailure, Effect.ledgerCall]

/-- Result of the tail of Start from the cid decode onwards: decode the
content hash, fetch the file stream, copy to the destination, and either
return the plain success result or assemble the stat report from the
connected peers and the ledger entries (whose retrieval error is discarded
by the code).  The completion report (updateInfo) is consulted only for
logging, so its result does not appear here. -/
def downloadOut (stat : Bool) (metadata : info) (env : Env) : Out :=
  match env.cidRes metadata.Cookie.Hash with
  | Except.error e =>
      NewOut internalError "Failed decoding filehash provided" e OutData.noData
  | Except.ok _ =>
    match env.getFileRes with
    | Except.error e => NewOut 500 "Failed getting file" e OutData.noData
    | Except.ok _size =>
      match env.copyRes with
      | Except.error e =>
          NewOut internalError "Failed writing to destination" e OutData.noData
      | Except.ok _ =>
        if stat = false then NewOut 200 DownloadSuccess "" OutData.noData
        else
          NewOut success "Stats" ""
            (OutData.statData
              { ConnectedPeers := env.peers,
                Ledgers := env.getMicroPayments.1,
                DownloadTime := env.downloadTime })

/-- Actions recorded by the tail of Start from the cid decode onwards, in
order: the decode, the file request, the optional progress-monitor spawn, the
copy, and on a successful copy the five-second grace wait, the completion
report (with a log entry when it fails, and nothing else — the error is
swallowed) and, in stat mode, the ledger retrieval. -/
def downloadTrace (stat hasProg : Bool) (metadata : info) (env : Env) :
    List Effect :=
  match env.cidRes metadata.Cookie.Hash with
  | Except.error _ => [Effect.cidDecode]
  | Except.ok _ =>
    match env.getFileRes with
    | Except.error _ => [Effect.cidDecode, Effect.getFileCall]
    | Except.ok _size =>
      match env.copyRes with
      | Except.error _ =>
          [Effect.cidDecode, Effect.getFileCall]
          ++ (if hasProg then [Effect.progressStarted] else [])
          ++ [Effect.copyCall]
      | Except.ok _ =>
          [Effect.cidDecode, Effect.getFileCall]
          ++ (if hasProg then [Effect.progressStarted] else [])
          ++ [Effect.copyCall, Effect.waitGrace, Effect.updateInfoCall]
          ++ (match env.updateInfoRes with
              | Except.error _ => [Effect.logUpdateInfoFailure]
              | Except.ok _ => [])
          ++ (if stat = false then [] else [Effect.ledgerCall])

/-- Translation of the tail of Start from the cid decode onwards, pairing the
returned result with the recorded actions appended to the trace so far. -/
def downloadPhase (stat hasProg : Bool) (metadata : info) (env : Env)
    (tr : List Effect) : Out × List Effect :=
  (downloadOut stat metadata env, tr ++ downloadTrace stat hasProg metadata env)

/-- Actions of the main flow up to and including the synchronous bootstrap,
with the retry-task spawn recorded exactly when the reported count is below
the threshold. -/
def mainTrace (l : LightClient) (metadata : info) (count : Int) : List Effect :=
  [Effect.getInfoCall,
   Effect.createFile
     (if l.destination = "." then
       combineArgs fpSeparator [l.destination, metadata.Cookie.Filename]
     else l.destination),
   Effect.decodePSK, Effect.setupLibp2p, Effect.liteNew, Effect.bootstrapCall]
  ++ (if count < peerThreshold then [Effect.retryTaskStarted] else [])

/-- Translation of Start: fetch the metadata, stop there on the info-only
flag, create the destination file (prefixing the filename when the
destination is the current directory), decode the swarm key, set up the
transport and the light client, bootstrap once synchronously, spawn the
background re-bootstrap task when the count is below the threshold, block in
the one-second wait loop when the count is exactly zero, and run the download
phase.  The spawned goroutine itself is embedded separately as retryLoop; its
writes to the shared counter surface in the main flow through the stream
env.waitCounts read by the wait loop. -/
def Start (l : LightClient) (sharable : String) (onlyInfo stat : Bool)
    (hasProg : Bool) (env : Env) : Out × List Effect :=
  let _ := sharable
  match env.getInfoRes with
  | Except.error e =>
      (NewOut serviceError "Failed getting metadata" e OutData.noData,
       [Effect.getInfoCall])
  | Except.ok metadata =>
    if onlyInfo then
      (NewOut success MetaInfo "" (OutData.metaData metadata),
       [Effect.getInfoCall])
    else
      let dstPath :=
        if l.destination = "." then
          combineArgs fpSeparator [l.destination, metadata.Cookie.Filename]
        else l.destination
      match env.createRes with
      | Except.error e =>
          (NewOut internalError "Failed creating destination file" e OutData.noData,
           [Effect.getInfoCall, Effect.createFile dstPath])
      | Except.ok _ =>
        match env.pskRes with
        | Except.error e =>
            (NewOut internalError "Failed decoding swarm key provided" e OutData.noData,
             [Effect.getInfoCall, Effect.createFile dstPath, Effect.decodePSK])
        | Except.ok _ =>
          match env.libp2pRes with
          | Except.error e =>
              (NewOut internalError "Failed setting up p2p peer" e OutData.noData,
               [Effect.getInfoCall, Effect.createFile dstPath, Effect.decodePSK,
                Effect.setupLibp2p])
          | Except.ok _ =>
            match env.liteNewRes with
            | Except.error e =>
                (NewOut internalError "Failed setting up light client" e OutData.noData,
                 [Effect.getInfoCall, Effect.createFile dstPath, Effect.decodePSK,
                  Effect.setupLibp2p, Effect.liteNew])
            | Except.ok _ =>
              let count := env.bootstrapCount
              let tr := mainTrace l metadata count
              if count = 0 then
                match waitForPeers env.waitCounts env.deadlineTicks 0 with
                | none =>
                    (NewOut internalError "Stopped while waiting for peers"
                       "context cancelled" OutData.noData,
                     tr ++ [Effect.waitLoopEntered])
                | some _ =>
                    downloadPhase stat hasProg metadata env
                      (tr ++ [Effect.waitLoopEntered])
              else
                downloadPhase stat hasProg metadata env tr

/-- Translation of the progress computation in the monitor goroutine:
prog = float64(size) / float64(total) * 100, with exact rational arithmetic
standing in for float64. -/
def progressPercent (size total : ℚ) : ℚ := size / total * 100

/-- Translation of the Go conversion int(x) applied to a float value:
truncation toward zero. -/
def intTrunc (q : ℚ) : ℤ := if 0 ≤ q then Int.floor q else Int.ceil q

/-- Translation of the progress-monitor goroutine: every 500 ms tick it stats
the destination file (statOk t tells whether the stat succeeded at tick t and
sizes t is the sampled size), computes the percentage, delivers the truncated
integer percentage to the observer, and returns exactly when the computed
percentage equals 100.  Returns the delivered percentages in order and
whether the monitor returned within the observed fuel ticks. -/
def progressMonitor (total : ℚ) (sizes : Nat → ℚ) (statOk : Nat → Bool) :
    Nat → Nat → List ℤ × Bool
  | 0, _ => ([], false)
  | fuel + 1, t =>
    if statOk t then
      let prog := progressPercent (sizes t) total
      if prog = 100 then ([intTrunc prog], true)
      else
        let rest := progressMonitor total sizes statOk fuel (t + 1)
        (intTrunc prog :: rest.1, rest.2)
    else
      progressMonitor total sizes statOk fuel (t + 1)

/-- Modelled from the spec: the transport's bootstrap capability
(lite.Bootstrap, whose sources are not under src) turns a leader-peer list
into live connections and reports their count; with every leader live it
reports the full size of the list. -/
def bootstrapSpec (liveLeaders : List String) : Int := liveLeaders.length

/-- Concrete metadata value used by the witnesses. -/
def sampleInfo : info :=
  { Cookie :=
      { Id := "cookie-1", Leaders := ["p1", "p2", "p3", "p4", "p5"],
        DownloadIndex := "0", Filename := "file.bin", Hash := "Qm",
        Link := "" },
    SwarmKey := [1, 2], Rate := "1" }

/-- Concrete client value used by the witnesses. -/
def lcSample : LightClient :=
  { destination := ".", repoRoot := "", jsonOut := false,
    timeout := timeMinute * 15 }

/-- Concrete environment in which the initial bootstrap count is zero and the
shared counter turns positive at the third one-second tick. -/
def envZero : Env :=
  { getInfoRes := Except.ok sampleInfo, createRes := Except.ok (),
    pskRes := Except.ok (), libp2pRes := Except.ok (),
    liteNewRes := Except.ok (), bootstrapCount := 0,
    waitCounts := fun t => if 3 ≤ t then 1 else 0, deadlineTicks := 5,
    cidRes := fun _ => Except.ok (), getFileRes := Except.ok 10,
    copyRes := Except.ok (), updateInfoRes := Except.ok (), peers := [],
    getMicroPayments := ([], none), downloadTime := 1 }

/-- Concrete environment in which every step up to the copy succeeds while
the completion report and the ledger retrieval fail. -/
def envC2 : Env :=
  { getInfoRes := Except.ok sampleInfo, createRes := Except.ok (),
    pskRes := Except.ok (), libp2pRes := Except.ok (),
    liteNewRes := Except.ok (), bootstrapCount := 7,
    waitCounts := fun _ => 0, deadlineTicks := 2,
    cidRes := fun _ => Except.ok (), getFileRes := Except.ok 10,
    copyRes := Except.ok (), updateInfoRes := Except.error "post failed",
    peers := ["p1"], getMicroPayments := (["r1"], some "ledger failed"),
    downloadTime := 4 }

/-- Concrete environment whose initial bootstrap count of two is below the
threshold. -/
def envLow : Env :=
  { getInfoRes := Except.ok sampleInfo, createRes := Except.ok (),
    pskRes := Except.ok (), libp2pRes := Except.ok (),
    liteNewRes := Except.ok (), bootstrapCount := 2,
    waitCounts := fun _ => 2, deadlineTicks := 2,
    cidRes := fun _ => Except.ok (), getFileRes := Except.ok 10,
    copyRes := Except.ok (), updateInfoRes := Except.ok (), peers := [],
    getMicroPayments := ([], none), downloadTime := 1 }

/-- Concrete environment in which the bootstrap count is the one the
spec-modelled bootstrap reports on the five live sample leaders. -/
def envFull : Env :=
  { getInfoRes := Except.ok sampleInfo, createRes := Except.ok (),
    pskRes := Except.ok (), libp2pRes := Except.ok (),
    liteNewRes := Except.ok (), bootstrapCount := bootstrapSpec sampleInfo.Cookie.Leaders,
    waitCounts := fun _ => 5, deadlineTicks := 2,
    cidRes := fun _ => Except.ok (), getFileRes := Except.ok 10,
    copyRes := Except.ok (), updateInfoRes := Except.ok (), peers := [],
    getMicroPayments := ([], none), downloadTime := 1 }

theorem str_append_assoc (a b c : String) : a ++ b ++ c = a ++ (b ++ c) := by
  apply String.ext
  simp [String.data_append, List.append_assoc]

theorem combineArgs_foldl (sep : String) :
    ∀ (r : List String) (a : String),
      r.foldl (fun retPath v => retPath ++ sep ++ v) a = joinSep sep (a :: r) := by
  intro r
  induction r with
  | nil => intro a; rfl
  | cons b r ih =>
      intro a
      show r.foldl (fun retPath v => retPath ++ sep ++ v) (a ++ sep ++ b)
          = joinSep sep (a :: b :: r)
      rw [ih (a ++ sep ++ b)]
      cases r with
      | nil => rfl
      | cons c r2 =>
          show (a ++ sep ++ b) ++ sep ++ joinSep sep (c :: r2)
              = a ++ sep ++ (b ++ sep ++ joinSep sep (c :: r2))
          simp [str_append_assoc]

theorem combineArgs_eq_joinSep (sep : String) (l : List String) :
    combineArgs sep l = joinSep sep l := by
  cases l with
  | nil => rfl
  | cons a rest => exact combineArgs_foldl sep rest a

theorem joinSep_append (sep : String) :
    ∀ (l m : List String), l ≠ [] → m ≠ [] →
      joinSep sep (l ++ m) = joinSep sep l ++ sep ++ joinSep sep m := by
  intro l
  induction l with
  | nil => intro m h _; exact absurd rfl h
  | cons a l ih =>
      intro m _ hm
      cases l with
      | nil =>
          cases m with
          | nil => exact absurd rfl hm
          | cons c m2 => rfl
      | cons b l2 =>
          have h2 : joinSep sep ((b :: l2) ++ m)
              = joinSep sep (b :: l2) ++ sep ++ joinSep sep m :=
            ih m (by simp) hm
          show a ++ sep ++ joinSep sep ((b :: l2) ++ m)
              = (a ++ sep ++ joinSep sep (b :: l2)) ++ sep ++ joinSep sep m
          rw [h2]
          simp [str_append_assoc]

/-- C6: the fetch command is exactly the nine tokens hive, customer, fetch,
sharable, --public-key, pubkey, --source-ip, ip, -j joined by the separator,
with --cookie and the cookie id appended (same separator) precisely when the
previous cookie id is non-empty; the completion command is hive, customer,
complete, cookieId, elapsedSeconds, -j joined by the separator. -/
theorem c6_command_strings :
    ∀ (sharable ck pk ip : String) (i : info) (t : Int),
      getInfoVal sharable ck pk ip
        = joinSep cmdSeparator
            (["hive", "customer", "fetch", sharable, "--public-key", pk,
              "--source-ip", ip, "-j"]
             ++ (if 0 < ck.length then ["--cookie", ck] else []))
      ∧ updateInfoVal i t
        = joinSep cmdSeparator
            ["hive", "customer", "complete", i.Cookie.Id, toString t, "-j"] := by
  intro sharable ck pk ip i t
  constructor
  · by_cases h : 0 < ck.length
    · rw [getInfoVal, if_pos h, if_pos h]
      rw [combineArgs_eq_joinSep, combineArgs_eq_joinSep]
      rw [joinSep_append cmdSeparator _ ["--cookie", ck] (by simp) (by simp)]
      rfl
    · rw [getInfoVal, if_neg h, if_neg h]
      rw [combineArgs_eq_joinSep]
      rfl
  · rw [updateInfoVal, combineArgs_eq_joinSep]

/-- C10: when the timeout string does not parse as a duration, NewLightClient
still succeeds, logs that the default of 15 minutes will be used, and actually
sets the session timeout to 45 minutes. -/
theorem c10_timeout_default :
    ∀ (destination timeout : String) (jsonOut : Bool),
      NewLightClient destination timeout jsonOut (some ()) none
        = Except.ok
            ({ destination := destination, repoRoot := "", jsonOut := jsonOut,
               timeout := timeMinute * 45 },
             ["Invalid timeout duration specified. Using default 15m"]) := by
  intro destination timeout jsonOut
  rfl

/-- C5 counterexample: a response body whose outer and inner layers parse and
whose inner status is 200, but whose data payload is malformed, makes decoding
fail; so decoding does not succeed for every body with inner status 200. -/
theorem c5_counterexample :
    UnmarshalJSON (Except.ok [("val", "x")])
      (fun _ => Except.ok { Status := 200, Details := "", Data := "notjson" })
      (fun _ => Except.error "invalid character") = Except.error "invalid character" := by
  rfl

/-- C5 amended: decoding fails with the parse error when the outer object or
the inner document is malformed; when both parse and the inner status differs
from 200 it fails with the inner details string when non-empty and otherwise
with the synthesized message naming the invalid status; when the inner status
is 200 the decode returns the result of deserializing the data payload,
succeeding with the payload exactly when that deserialization succeeds. -/
theorem c5_envelope_decoding :
    ∀ (innerParse : String → Except String tmpResp)
      (dataParse : String → Except String info)
      (val : List (String × String)) (tmp : tmpResp),
      (∀ e : String, UnmarshalJSON (Except.error e) innerParse dataParse
          = Except.error e)
      ∧ (∀ e : String, innerParse (mapGet val "val") = Except.error e →
          UnmarshalJSON (Except.ok val) innerParse dataParse = Except.error e)
      ∧ (innerParse (mapGet val "val") = Except.ok tmp → tmp.Status ≠ 200 →
          UnmarshalJSON (Except.ok val) innerParse dataParse
            = Except.error
                (if tmp.Details.length = 0 then
                  "Invalid status from server: %!s(int=" ++ toString tmp.Status ++ ")"
                else tmp.Details))
      ∧ (innerParse (mapGet val "val") = Except.ok tmp → tmp.Status = 200 →
          ((∀ e : String, dataParse tmp.Data = Except.error e →
              UnmarshalJSON (Except.ok val) innerParse dataParse = Except.error e)
           ∧ (∀ d : info, dataParse tmp.Data = Except.ok d →
              UnmarshalJSON (Except.ok val) innerParse dataParse
                = Except.ok (200, d)))) := by
  intro innerParse dataParse val tmp
  refine ⟨fun e => rfl, ?_, ?_, ?_⟩
  · intro e h
    simp [UnmarshalJSON, h]
  · intro h hs
    simp [UnmarshalJSON, h, hs]
  · intro h hs
    constructor
    · intro e hd
      simp [UnmarshalJSON, h, hs, hd]
    · intro d hd
      simp [UnmarshalJSON, h, hs, hd]

/-- C5 witness: the amended characterization evaluated at concrete parse
results for the success case. -/
theorem c5_witness :
    ((fun s => if s = "good" then Except.ok { Status := 200, Details := "", Data := "D" }
       else Except.error "unexpected end of JSON input")
        (mapGet [("val", "good")] "val")
      = Except.ok ({ Status := 200, Details := "", Data := "D" } : tmpResp))
    ∧ ((fun s => if s = "D" then Except.ok
          ({ Cookie := { Id := "c", Leaders := [], DownloadIndex := "",
                         Filename := "", Hash := "", Link := "" },
             SwarmKey := [], Rate := "" } : info)
        else Except.error "bad data") "D"
      = Except.ok ({ Cookie := { Id := "c", Leaders := [], DownloadIndex := "",
                                 Filename := "", Hash := "", Link := "" },
                     SwarmKey := [], Rate := "" } : info))
    ∧ UnmarshalJSON (Except.ok [("val", "good")])
        (fun s => if s = "good" then Except.ok { Status := 200, Details := "", Data := "D" }
          else Except.error "unexpected end of JSON input")
        (fun s => if s = "D" then Except.ok
            ({ Cookie := { Id := "c", Leaders := [], DownloadIndex := "",
                           Filename := "", Hash := "", Link := "" },
               SwarmKey := [], Rate := "" } : info)
          else Except.error "bad data")
      = Except.ok (200,
          ({ Cookie := { Id := "c", Leaders := [], DownloadIndex := "",
                         Filename := "", Hash := "", Link := "" },
             SwarmKey := [], Rate := "" } : info)) := by
  refine ⟨by rfl, by rfl, ?_⟩
  exact ((c5_envelope_decoding
      (fun s => if s = "good" then Except.ok { Status := 200, Details := "", Data := "D" }
        else Except.error "unexpected end of JSON input")
      (fun s => if s = "D" then Except.ok
          ({ Cookie := { Id := "c", Leaders := [], DownloadIndex := "",
                         Filename := "", Hash := "", Link := "" },
             SwarmKey := [], Rate := "" } : info)
        else Except.error "bad data")
      [("val", "good")]
      { Status := 200, Details := "", Data := "D" }).2.2.2
    (by rfl) rfl).2
    ({ Cookie := { Id := "c", Leaders := [], DownloadIndex := "",
                   Filename := "", Hash := "", Link := "" },
       SwarmKey := [], Rate := "" } : info) (by rfl)

theorem waitForPeers_none_iff (counts : Nat → Int) :
    ∀ (fuel t : Nat),
      waitForPeers counts fuel t = none ↔
        ∀ s, t + 1 ≤ s → s ≤ t + fuel → counts s ≤ 0 := by
  intro fuel
  induction fuel with
  | zero =>
      intro t
      simp only [waitForPeers, true_iff]
      intro s h1 h2
      omega
  | succ fuel ih =>
      intro t
      simp only [waitForPeers]
      by_cases h : 0 < counts (t + 1)
      · rw [if_pos h]
        constructor
        · intro hc; simp at hc
        · intro hall
          exact absurd (hall (t + 1) (by omega) (by omega)) (by omega)
      · rw [if_neg h]
        rw [ih (t + 1)]
        constructor
        · intro hall s h1 h2
          by_cases hs : s = t + 1
          · subst hs; omega
          · exact hall s (by omega) (by omega)
        · intro hall s h1 h2
          exact hall s (by omega) (by omega)

theorem waitForPeers_some (counts : Nat → Int) :
    ∀ (fuel t s : Nat), waitForPeers counts fuel t = some s →
      t + 1 ≤ s ∧ s ≤ t + fuel ∧ 0 < counts s := by
  intro fuel
  induction fuel with
  | zero => intro t s h; simp [waitForPeers] at h
  | succ fuel ih =>
      intro t s h
      simp only [waitForPeers] at h
      by_cases hc : 0 < counts (t + 1)
      · rw [if_pos hc] at h
        have hs := Option.some.inj h
        subst hs
        exact ⟨by omega, by omega, hc⟩
      · rw [if_neg hc] at h
        obtain ⟨h1, h2, h3⟩ := ih (t + 1) s h
        exact ⟨by omega, by omega, h3⟩

theorem retryLoop_not_fuelOut (br : Nat → Int) (nL cT : Nat) :
    ∀ (fuel t : Nat) (c : Int), 1 ≤ fuel → 31 ≤ fuel + t →
      (retryLoop br nL cT fuel t c).2.2 ≠ RetryExit.fuelOut := by
  intro fuel
  induction fuel with
  | zero => intro t c h1 _; omega
  | succ fuel ih =>
      intro t c _ h2
      simp only [retryLoop]
      by_cases hth : peerThreshold ≤ c
      · rw [if_pos hth]; simp
      · rw [if_neg hth]
        by_cases hcT : cT ≤ t + 1
        · rw [if_pos hcT]; simp
        · rw [if_neg hcT]
          by_cases htb : 900 < 30 * (t + 1)
          · rw [if_pos htb]; simp
          · rw [if_neg htb]
            exact ih (t + 1) _ (by omega) (by omega)

theorem retryLoop_exit (br : Nat → Int) (nL cT : Nat) :
    ∀ (fuel t : Nat) (c : Int),
      ((retryLoop br nL cT fuel t c).2.2 = RetryExit.threshold →
        peerThreshold ≤ (retryLoop br nL cT fuel t c).1)
      ∧ ((retryLoop br nL cT fuel t c).2.2 = RetryExit.timeBudget →
        900 < 30 * (retryLoop br nL cT fuel t c).2.1)
      ∧ ((retryLoop br nL cT fuel t c).2.2 = RetryExit.cancelled →
        cT ≤ (retryLoop br nL cT fuel t c).2.1) := by
  intro fuel
  induction fuel with
  | zero =>
      intro t c
      refine ⟨?_, ?_, ?_⟩ <;> (intro h; simp [retryLoop] at h)
  | succ fuel ih =>
      intro t c
      simp only [retryLoop]
      by_cases hth : peerThreshold ≤ c
      · rw [if_pos hth]
        exact ⟨fun _ => hth, fun h => by simp at h, fun h => by simp at h⟩
      · rw [if_neg hth]
        by_cases hcT : cT ≤ t + 1
        · rw [if_pos hcT]
          exact ⟨fun h => by simp at h, fun h => by simp at h, fun _ => hcT⟩
        · rw [if_neg hcT]
          by_cases htb : 900 < 30 * (t + 1)
          · rw [if_pos htb]
            exact ⟨fun h => by simp at h, fun _ => htb, fun h => by simp at h⟩
          · rw [if_neg htb]
            exact ih (t + 1) _

theorem retryLoop_mono (br : Nat → Int) (nL cT : Nat) :
    ∀ (fuel t : Nat) (c : Int), (∀ s, 0 ≤ br s) →
      c ≤ (retryLoop br nL cT fuel t c).1 := by
  intro fuel
  induction fuel with
  | zero => intro t c _; simp [retryLoop]
  | succ fuel ih =>
      intro t c hb
      simp only [retryLoop]
      by_cases hth : peerThreshold ≤ c
      · rw [if_pos hth]
      · rw [if_neg hth]
        by_cases hcT : cT ≤ t + 1
        · rw [if_pos hcT]
        · rw [if_neg hcT]
          by_cases htb : 900 < 30 * (t + 1)
          · rw [if_pos htb]
          · rw [if_neg htb]
            refine le_trans ?_ (ih (t + 1) _ hb)
            by_cases hn : c < (nL : Int)
            · rw [if_pos hn]
              have := hb (t + 1)
              omega
            · rw [if_neg hn]

theorem downloadTrace_sub (stat hasProg : Bool) (md : info) (env : Env) :
    ∀ e, e ∈ downloadTrace stat hasProg md env → e ∈ downloadEffects := by
  intro e he
  rcases h1 : env.cidRes md.Cookie.Hash with e1 | u1 <;>
  rcases h2 : env.getFileRes with e2 | u2 <;>
  rcases h3 : env.copyRes with e3 | u3 <;>
  rcases h4 : env.updateInfoRes with e4 | u4 <;>
  by_cases hp : hasProg <;>
  by_cases hst : stat = false <;>
  (try simp [downloadTrace, h1, h2, h3, h4, hp, hst, downloadEffects] at he ⊢) <;>
  tauto

theorem downloadTrace_cid (stat hasProg : Bool) (md : info) (env : Env) :
    Effect.cidDecode ∈ downloadTrace stat hasProg md env := by
  rcases h1 : env.cidRes md.Cookie.Hash with e1 | u1 <;>
  rcases h2 : env.getFileRes with e2 | u2 <;>
  rcases h3 : env.copyRes with e3 | u3 <;>
  simp [downloadTrace, h1, h2, h3]

theorem mainTrace_retry (l : LightClient) (md : info) (count : Int) :
    Effect.retryTaskStarted ∈ mainTrace l md count ↔ count < peerThreshold := by
  by_cases hc : count < peerThreshold <;> simp [mainTrace, hc]

theorem mainTrace_no_wait (l : LightClient) (md : info) (count : Int) :
    Effect.waitLoopEntered ∉ mainTrace l md count := by
  by_cases hc : count < peerThreshold <;> simp [mainTrace, hc]

theorem mainTrace_no_cid (l : LightClient) (md : info) (count : Int) :
    Effect.cidDecode ∉ mainTrace l md count := by
  by_cases hc : count < peerThreshold <;> simp [mainTrace, hc]

theorem Start_run (l : LightClient) (sharable : String) (stat hasProg : Bool)
    (env : Env) (i : info)
    (h1 : env.getInfoRes = Except.ok i) (h2 : env.createRes = Except.ok ())
    (h3 : env.pskRes = Except.ok ()) (h4 : env.libp2pRes = Except.ok ())
    (h5 : env.liteNewRes = Except.ok ()) :
    Start l sharable false stat hasProg env =
      if env.bootstrapCount = 0 then
        match waitForPeers env.waitCounts env.deadlineTicks 0 with
        | none =>
            (NewOut internalError "Stopped while waiting for peers"
               "context cancelled" OutData.noData,
             mainTrace l i env.bootstrapCount ++ [Effect.waitLoopEntered])
        | some _ =>
            downloadPhase stat hasProg i env
              (mainTrace l i env.bootstrapCount ++ [Effect.waitLoopEntered])
      else downloadPhase stat hasProg i env (mainTrace l i env.bootstrapCount) := by
  simp [Start, h1, h2, h3, h4, h5]

/-- C1: when the synchronous bootstrap reports exactly zero connected peers,
Start blocks in the one-second polling wait loop: the wait fails exactly when
the shared count stays non-positive at every tick up to the session deadline,
in which case Start returns the failure result with message Stopped while
waiting for peers and never reaches the download; otherwise the wait returns
at a tick no later than the deadline at which the shared count is positive
and Start proceeds to the download.  The loop is settled within deadlineTicks
iterations, so it never blocks past the deadline. -/
theorem c1_zero_peer_wait :
    ∀ (l : LightClient) (sharable : String) (stat hasProg : Bool) (env : Env)
      (i : info),
      env.getInfoRes = Except.ok i →
      env.createRes = Except.ok () →
      env.pskRes = Except.ok () →
      env.libp2pRes = Except.ok () →
      env.liteNewRes = Except.ok () →
      env.bootstrapCount = 0 →
      ((waitForPeers env.waitCounts env.deadlineTicks 0 = none ↔
          ∀ s, 1 ≤ s → s ≤ env.deadlineTicks → env.waitCounts s ≤ 0)
       ∧ (waitForPeers env.waitCounts env.deadlineTicks 0 = none →
            (Start l sharable false stat hasProg env).1
              = NewOut internalError "Stopped while waiting for peers"
                  "context cancelled" OutData.noData
            ∧ Effect.cidDecode ∉ (Start l sharable false stat hasProg env).2)
       ∧ (∀ t, waitForPeers env.waitCounts env.deadlineTicks 0 = some t →
            t ≤ env.deadlineTicks ∧ 0 < env.waitCounts t
            ∧ Effect.cidDecode ∈ (Start l sharable false stat hasProg env).2)) := by
  intro l sharable stat hasProg env i h1 h2 h3 h4 h5 h6
  have hrun := Start_run l sharable stat hasProg env i h1 h2 h3 h4 h5
  refine ⟨?_, ?_, ?_⟩
  · have h := waitForPeers_none_iff env.waitCounts env.deadlineTicks 0
    simpa using h
  · intro hw
    rw [hrun, if_pos h6, hw]
    refine ⟨rfl, ?_⟩
    intro hmem
    rcases List.mem_append.mp hmem with hmem | hmem
    · exact mainTrace_no_cid l i env.bootstrapCount hmem
    · simp at hmem
  · intro t hw
    obtain ⟨ht1, ht2, ht3⟩ := waitForPeers_some env.waitCounts env.deadlineTicks 0 t hw
    rw [hrun, if_pos h6, hw]
    refine ⟨by omega, ht3, ?_⟩
    simp only [downloadPhase]
    exact List.mem_append.mpr (Or.inr (downloadTrace_cid stat hasProg i env))

/-- C1 witness: in the concrete environment envZero the bootstrap count is
zero, the shared counter turns positive at tick three, before the deadline of
five ticks, and the session proceeds to the download. -/
theorem c1_witness :
    waitForPeers envZero.waitCounts envZero.deadlineTicks 0 = some 3
    ∧ 3 ≤ envZero.deadlineTicks ∧ 0 < envZero.waitCounts 3
    ∧ Effect.cidDecode ∈ (Start lcSample "s" false false false envZero).2 := by
  refine ⟨by decide, ?_⟩
  have h := (c1_zero_peer_wait lcSample "s" false false envZero sampleInfo
    rfl rfl rfl rfl rfl rfl).2.2 3 (by decide)
  exact ⟨h.1, h.2.1, h.2.2⟩

/-- C3: when the synchronous bootstrap count is below the threshold of five,
Start spawns the background retry task (and only then); on each thirty-second
tick the task exits if cancelled, abandons retrying once more than fifteen
minutes have elapsed, and otherwise re-bootstraps and adds the result to the
count exactly when the count is still below the size of the leader list; it
also exits when the count reaches the threshold, and with enough fuel the
loop always settles with one of these three exits, each implying its stated
condition. -/
theorem c3_retry_task :
    ∀ (l : LightClient) (sharable : String) (stat hasProg : Bool) (env : Env)
      (i : info) (br : Nat → Int) (nL cT fuel t : Nat) (c : Int),
      env.getInfoRes = Except.ok i →
      env.createRes = Except.ok () →
      env.pskRes = Except.ok () →
      env.libp2pRes = Except.ok () →
      env.liteNewRes = Except.ok () →
      ((Effect.retryTaskStarted ∈ (Start l sharable false stat hasProg env).2
          ↔ env.bootstrapCount < peerThreshold)
       ∧ (c < peerThreshold → ¬ (cT ≤ t + 1) → ¬ (900 < 30 * (t + 1)) →
            retryLoop br nL cT (fuel + 1) t c
              = retryLoop br nL cT fuel (t + 1)
                  (if c < (nL : Int) then c + br (t + 1) else c))
       ∧ (peerThreshold ≤ c →
            retryLoop br nL cT (fuel + 1) t c = (c, t, RetryExit.threshold))
       ∧ (c < peerThreshold → cT ≤ t + 1 →
            retryLoop br nL cT (fuel + 1) t c = (c, t + 1, RetryExit.cancelled))
       ∧ (c < peerThreshold → ¬ (cT ≤ t + 1) → 900 < 30 * (t + 1) →
            retryLoop br nL cT (fuel + 1) t c = (c, t + 1, RetryExit.timeBudget))
       ∧ (1 ≤ fuel → 31 ≤ fuel + t →
            (retryLoop br nL cT fuel t c).2.2 ≠ RetryExit.fuelOut
            ∧ ((retryLoop br nL cT fuel t c).2.2 = RetryExit.threshold →
                peerThreshold ≤ (retryLoop br nL cT fuel t c).1)
            ∧ ((retryLoop br nL cT fuel t c).2.2 = RetryExit.timeBudget →
                900 < 30 * (retryLoop br nL cT fuel t c).2.1)
            ∧ ((retryLoop br nL cT fuel t c).2.2 = RetryExit.cancelled →
                cT ≤ (retryLoop br nL cT fuel t c).2.1))) := by
  intro l sharable stat hasProg env i br nL cT fuel t c h1 h2 h3 h4 h5
  have hrun := Start_run l sharable stat hasProg env i h1 h2 h3 h4 h5
  refine ⟨?_, ?_, ?_, ?_, ?_, ?_⟩
  · rw [hrun]
    by_cases hz : env.bootstrapCount = 0
    · rw [if_pos hz]
      cases hw : waitForPeers env.waitCounts env.deadlineTicks 0 with
      | none =>
          constructor
          · intro _; rw [hz]; norm_num [peerThreshold]
          · intro _
            refine List.mem_append.mpr (Or.inl ?_)
            rw [mainTrace_retry, hz]
            norm_num [peerThreshold]
      | some t2 =>
          constructor
          · intro _; rw [hz]; norm_num [peerThreshold]
          · intro _
            simp only [downloadPhase]
            refine List.mem_append.mpr (Or.inl (List.mem_append.mpr (Or.inl ?_)))
            rw [mainTrace_retry, hz]
            norm_num [peerThreshold]
    · rw [if_neg hz]
      simp only [downloadPhase]
      constructor
      · intro hmem
        rcases List.mem_append.mp hmem with hmem | hmem
        · exact (mainTrace_retry l i env.bootstrapCount).mp hmem
        · have := downloadTrace_sub stat hasProg i env _ hmem
          simp [downloadEffects] at this
      · intro hlt
        exact List.mem_append.mpr (Or.inl ((mainTrace_retry l i env.bootstrapCount).mpr hlt))
  · intro hlt hcT htb
    simp only [retryLoop]
    rw [if_neg (not_le.mpr hlt), if_neg hcT, if_neg htb]
  · intro hth
    simp only [retryLoop]
    rw [if_pos hth]
  · intro hlt hcT
    simp only [retryLoop]
    rw [if_neg (not_le.mpr hlt), if_pos hcT]
  · intro hlt hcT htb
    simp only [retryLoop]
    rw [if_neg (not_le.mpr hlt), if_neg hcT, if_pos htb]
  · intro hf1 hf2
    exact ⟨retryLoop_not_fuelOut br nL cT fuel t c hf1 hf2,
      (retryLoop_exit br nL cT fuel t c).1,
      (retryLoop_exit br nL cT fuel t c).2.1,
      (retryLoop_exit br nL cT fuel t c).2.2⟩

/-- C3 witness: in the concrete environment envLow the bootstrap count of two
is below the threshold and the retry-task spawn is recorded; the concrete
retry loop with bootstrap results of one per tick settles without running out
of fuel. -/
theorem c3_witness :
    (Effect.retryTaskStarted ∈ (Start lcSample "s" false false false envLow).2
      ↔ envLow.bootstrapCount < peerThreshold)
    ∧ (retryLoop (fun _ => 1) 8 1000 40 0 0).2.2 ≠ RetryExit.fuelOut := by
  have h := c3_retry_task lcSample "s" false false envLow sampleInfo
    (fun _ => 1) 8 1000 40 0 0 rfl rfl rfl rfl rfl
  exact ⟨h.1, (h.2.2.2.2.2 (by norm_num) (by norm_num)).1⟩

/-- C4: the shared connected-peer count is monotonically non-decreasing: it
is seeded by the initial synchronous bootstrap and the retry task only ever
adds bootstrap results to it, so under the hypothesis that every bootstrap
call returns a non-negative count, the count at exit is at least the count at
any earlier tick. -/
theorem c4_count_monotone :
    ∀ (br : Nat → Int) (nL cT fuel t : Nat) (c : Int),
      (∀ s, 0 ≤ br s) →
      c ≤ (retryLoop br nL cT fuel t c).1 := by
  intro br nL cT fuel t c hb
  exact retryLoop_mono br nL cT fuel t c hb

/-- C4 witness: the concrete retry loop started at count zero with bootstrap
results of one per tick never decreases below its starting count. -/
theorem c4_witness : (0 : Int) ≤ (retryLoop (fun _ => 1) 3 100 40 0 0).1 :=
  c4_count_monotone (fun _ => 1) 3 100 40 0 0 (fun _ => by norm_num)

theorem downloadOut_success (stat : Bool) (md : info) (env : Env) (n : Int)
    (hc : env.cidRes md.Cookie.Hash = Except.ok ())
    (hg : env.getFileRes = Except.ok n)
    (hcp : env.copyRes = Except.ok ()) :
    downloadOut stat md env
      = (if stat = false then NewOut 200 DownloadSuccess "" OutData.noData
         else NewOut success "Stats" ""
           (OutData.statData
             { ConnectedPeers := env.peers,
               Ledgers := env.getMicroPayments.1,
               DownloadTime := env.downloadTime })) := by
  simp [downloadOut, hc, hg, hcp]

theorem downloadTrace_log (stat hasProg : Bool) (md : info) (env : Env)
    (n : Int) (e : String)
    (hc : env.cidRes md.Cookie.Hash = Except.ok ())
    (hg : env.getFileRes = Except.ok n)
    (hcp : env.copyRes = Except.ok ())
    (hu : env.updateInfoRes = Except.error e) :
    Effect.logUpdateInfoFailure ∈ downloadTrace stat hasProg md env := by
  simp [downloadTrace, hc, hg, hcp, hu]

/-- C2: once the file copy has completed, a failure of the completion report
or of the ledger retrieval never changes the result kind: Start still returns
the plain success result when stat is false and the stat report when stat is
true, for every completion-report outcome and every discarded ledger error,
and a failed completion report is recorded as logged only. -/
theorem c2_completion_failures_swallowed :
    ∀ (l : LightClient) (sharable : String) (stat hasProg : Bool) (env : Env)
      (i : info) (n : Int),
      env.getInfoRes = Except.ok i →
      env.createRes = Except.ok () →
      env.pskRes = Except.ok () →
      env.libp2pRes = Except.ok () →
      env.liteNewRes = Except.ok () →
      (env.bootstrapCount = 0 →
        (waitForPeers env.waitCounts env.deadlineTicks 0).isSome = true) →
      env.cidRes i.Cookie.Hash = Except.ok () →
      env.getFileRes = Except.ok n →
      env.copyRes = Except.ok () →
      ((Start l sharable false stat hasProg env).1
          = (if stat = false then NewOut 200 DownloadSuccess "" OutData.noData
             else NewOut success "Stats" ""
               (OutData.statData
                 { ConnectedPeers := env.peers,
                   Ledgers := env.getMicroPayments.1,
                   DownloadTime := env.downloadTime }))
       ∧ (∀ e, env.updateInfoRes = Except.error e →
            Effect.logUpdateInfoFailure ∈ (Start l sharable false stat hasProg env).2)) := by
  intro l sharable stat hasProg env i n h1 h2 h3 h4 h5 hwz hc hg hcp
  have hrun := Start_run l sharable stat hasProg env i h1 h2 h3 h4 h5
  by_cases hz : env.bootstrapCount = 0
  · cases hw : waitForPeers env.waitCounts env.deadlineTicks 0 with
    | none => exact absurd (hwz hz) (by rw [hw]; simp)
    | some t2 =>
        rw [hrun, if_pos hz, hw]
        constructor
        · exact downloadOut_success stat i env n hc hg hcp
        · intro e hu
          simp only [downloadPhase]
          exact List.mem_append.mpr
            (Or.inr (downloadTrace_log stat hasProg i env n e hc hg hcp hu))
  · rw [hrun, if_neg hz]
    constructor
    · exact downloadOut_success stat i env n hc hg hcp
    · intro e hu
      simp only [downloadPhase]
      exact List.mem_append.mpr
        (Or.inr (downloadTrace_log stat hasProg i env n e hc hg hcp hu))

/-- C2 witness: in the concrete environment envC2 the copy succeeds while the
completion report and the ledger retrieval fail, and the stat run still
returns the stat report, with the report failure recorded as logged. -/
theorem c2_witness :
    (Start lcSample "s" false true false envC2).1
      = NewOut success "Stats" ""
          (OutData.statData
            { ConnectedPeers := ["p1"], Ledgers := ["r1"], DownloadTime := 4 })
    ∧ Effect.logUpdateInfoFailure ∈ (Start lcSample "s" false true false envC2).2 := by
  have h := c2_completion_failures_swallowed lcSample "s" true false envC2
    sampleInfo 10 rfl rfl rfl rfl rfl
    (fun hz => absurd hz (by decide)) rfl rfl rfl
  exact ⟨h.1, h.2 "post failed" rfl⟩

/-- C7: with infoOnly set and the metadata fetch succeeding, Start returns
the metadata-only result immediately after the fetch, and the recorded trace
is exactly the metadata call: no destination file is created, no transport or
swarm setup occurs, and no bootstrap, download, or completion report is
performed. -/
theorem c7_info_only :
    ∀ (l : LightClient) (sharable : String) (stat hasProg : Bool) (env : Env)
      (i : info),
      env.getInfoRes = Except.ok i →
      Start l sharable true stat hasProg env
        = (NewOut success MetaInfo "" (OutData.metaData i),
           [Effect.getInfoCall]) := by
  intro l sharable stat hasProg env i h1
  simp [Start, h1]

/-- C7 witness: the concrete info-only run returns the metadata-only result
with the single-action trace. -/
theorem c7_witness :
    Start lcSample "s" true false false envC2
      = (NewOut success MetaInfo "" (OutData.metaData sampleInfo),
         [Effect.getInfoCall]) :=
  c7_info_only lcSample "s" false false envC2 sampleInfo rfl

/-- C8: for metadata whose leader list reaches the threshold of five, the
spec-modelled bootstrap reports a count of at least five, and Start then
neither spawns the background retry task nor enters the zero-peer wait
loop. -/
theorem c8_no_retry_above_threshold :
    ∀ (l : LightClient) (sharable : String) (stat hasProg : Bool) (env : Env)
      (i : info),
      env.getInfoRes = Except.ok i →
      env.createRes = Except.ok () →
      env.pskRes = Except.ok () →
      env.libp2pRes = Except.ok () →
      env.liteNewRes = Except.ok () →
      env.bootstrapCount = bootstrapSpec i.Cookie.Leaders →
      peerThreshold ≤ (i.Cookie.Leaders.length : Int) →
      (peerThreshold ≤ env.bootstrapCount
       ∧ Effect.retryTaskStarted ∉ (Start l sharable false stat hasProg env).2
       ∧ Effect.waitLoopEntered ∉ (Start l sharable false stat hasProg env).2) := by
  intro l sharable stat hasProg env i h1 h2 h3 h4 h5 hb hth
  have hge : peerThreshold ≤ env.bootstrapCount := by
    rw [hb]; simpa [bootstrapSpec] using hth
  have hge5 : (5 : Int) ≤ env.bootstrapCount := by
    simpa [peerThreshold] using hge
  have hz : ¬ env.bootstrapCount = 0 := by omega
  have hnl : ¬ env.bootstrapCount < peerThreshold := not_lt.mpr hge
  have hrun := Start_run l sharable stat hasProg env i h1 h2 h3 h4 h5
  rw [hrun, if_neg hz]
  refine ⟨hge, ?_, ?_⟩
  · intro hmem
    simp only [downloadPhase] at hmem
    rcases List.mem_append.mp hmem with hmem | hmem
    · exact hnl ((mainTrace_retry l i env.bootstrapCount).mp hmem)
    · have hsub := downloadTrace_sub stat hasProg i env _ hmem
      simp [downloadEffects] at hsub
  · intro hmem
    simp only [downloadPhase] at hmem
    rcases List.mem_append.mp hmem with hmem | hmem
    · exact mainTrace_no_wait l i env.bootstrapCount hmem
    · have hsub := downloadTrace_sub stat hasProg i env _ hmem
      simp [downloadEffects] at hsub

/-- C8 witness: the concrete environment envFull carries the count the
spec-modelled bootstrap reports on the five live sample leaders, and the run
records no retry-task spawn. -/
theorem c8_witness :
    peerThreshold ≤ envFull.bootstrapCount
    ∧ Effect.retryTaskStarted ∉ (Start lcSample "s" false false false envFull).2 := by
  have h := c8_no_retry_above_threshold lcSample "s" false false envFull
    sampleInfo rfl rfl rfl rfl rfl rfl (by decide)
  exact ⟨h.1, h.2.1⟩

theorem intTrunc_mono (a b : ℚ) (ha : 0 ≤ a) (hab : a ≤ b) :
    intTrunc a ≤ intTrunc b := by
  unfold intTrunc
  rw [if_pos ha, if_pos (le_trans ha hab)]
  exact Int.floor_mono hab

theorem progressPercent_nonneg (size total : ℚ) (hs : 0 ≤ size)
    (ht : 0 < total) : 0 ≤ progressPercent size total := by
  unfold progressPercent
  positivity

theorem progressPercent_mono (total : ℚ) (ht : 0 < total) (a b : ℚ)
    (h : a ≤ b) : progressPercent a total ≤ progressPercent b total := by
  unfold progressPercent
  gcongr

theorem progressMonitor_head (total : ℚ) (sizes : Nat → ℚ)
    (statOk : Nat → Bool) :
    ∀ (fuel t : Nat) (x : ℤ),
      ((progressMonitor total sizes statOk fuel t).1).head? = some x →
      ∃ s, t ≤ s ∧ x = intTrunc (progressPercent (sizes s) total) := by
  intro fuel
  induction fuel with
  | zero => intro t x h; simp [progressMonitor] at h
  | succ fuel ih =>
      intro t x h
      simp only [progressMonitor] at h
      by_cases hst : statOk t = true
      · rw [if_pos hst] at h
        by_cases hp : progressPercent (sizes t) total = 100
        · rw [if_pos hp] at h
          simp at h
          exact ⟨t, le_refl t, h.symm⟩
        · rw [if_neg hp] at h
          simp at h
          exact ⟨t, le_refl t, h.symm⟩
      · rw [if_neg hst] at h
        obtain ⟨s, hs1, hs2⟩ := ih (t + 1) x h
        exact ⟨s, by omega, hs2⟩

theorem progressMonitor_chain (total : ℚ) (sizes : Nat → ℚ)
    (statOk : Nat → Bool) (ht : 0 < total)
    (hmono : ∀ a b, a ≤ b → sizes a ≤ sizes b) (hnn : ∀ s, 0 ≤ sizes s) :
    ∀ (fuel t : Nat),
      List.Chain' (fun a b => a ≤ b)
        (progressMonitor total sizes statOk fuel t).1 := by
  intro fuel
  induction fuel with
  | zero => intro t; simp [progressMonitor]
  | succ fuel ih =>
      intro t
      simp only [progressMonitor]
      by_cases hst : statOk t = true
      · rw [if_pos hst]
        by_cases hp : progressPercent (sizes t) total = 100
        · rw [if_pos hp]; simp
        · rw [if_neg hp]
          rw [List.chain'_cons']
          refine ⟨?_, ih (t + 1)⟩
          intro b hb
          obtain ⟨s, hs1, hs2⟩ :=
            progressMonitor_head total sizes statOk fuel (t + 1) b hb
          rw [hs2]
          exact intTrunc_mono _ _
            (progressPercent_nonneg _ _ (hnn t) ht)
            (progressPercent_mono total ht _ _ (hmono t s (by omega)))
      · rw [if_neg hst]
        exact ih (t + 1)

/-- C9: with a fixed positive total size, the integer percentages delivered
to the observer by the progress monitor are monotonically non-decreasing
across successive samples whenever the sampled destination size never
decreases; the computed percent is size divided by the total times one
hundred and equals exactly one hundred when the sampled size equals the
total, at which point the monitor delivers the final update and returns. -/
theorem c9_progress :
    ∀ (total : ℚ) (sizes : Nat → ℚ) (statOk : Nat → Bool) (fuel t : Nat),
      0 < total →
      (∀ a b, a ≤ b → sizes a ≤ sizes b) →
      (∀ s, 0 ≤ sizes s) →
      (List.Chain' (fun a b => a ≤ b)
          (progressMonitor total sizes statOk fuel t).1
       ∧ (∀ s, sizes s = total → progressPercent (sizes s) total = 100)
       ∧ (∀ u, statOk u = true → sizes u = total →
            progressMonitor total sizes statOk (fuel + 1) u = ([100], true))) := by
  intro total sizes statOk fuel t ht hmono hnn
  have hpct : ∀ s, sizes s = total → progressPercent (sizes s) total = 100 := by
    intro s hs
    rw [hs]
    unfold progressPercent
    rw [div_self (ne_of_gt ht), one_mul]
  refine ⟨progressMonitor_chain total sizes statOk ht hmono hnn fuel t, hpct, ?_⟩
  intro u hu hsu
  have hp := hpct u hsu
  simp only [progressMonitor]
  rw [if_pos hu, if_pos hp, hp]
  norm_num [intTrunc]

/-- C9 witness: a concrete session with total size four and a sampled size
growing by one each tick delivers monotone percentages and stops with the
final one-hundred-percent update at the tick where the size reaches the
total. -/
theorem c9_witness :
    List.Chain' (fun a b => a ≤ b)
      (progressMonitor 4 (fun s => min ((s : ℚ)) 4) (fun _ => true) 6 0).1
    ∧ progressMonitor 4 (fun s => min ((s : ℚ)) 4) (fun _ => true) 5 4
        = ([100], true) := by
  have hmono : ∀ a b : ℕ, a ≤ b → min ((a : ℚ)) 4 ≤ min ((b : ℚ)) 4 := by
    intro a b h
    exact min_le_min (by exact_mod_cast h) le_rfl
  have hnn : ∀ s : ℕ, 0 ≤ min ((s : ℚ)) 4 := by
    intro s
    exact le_min (by positivity) (by norm_num)
  have h1 := (c9_progress 4 (fun s => min ((s : ℚ)) 4) (fun _ => true) 6 0
    (by norm_num) hmono hnn).1
  have h2 := (c9_progress 4 (fun s => min ((s : ℚ)) 4) (fun _ => true) 4 0
    (by norm_num) hmono hnn).2.2 4 rfl (by norm_num)
  exact ⟨h1, h2⟩

end SSLight
